import Mathlib

/-!
Verification of the trader-app core: ledger/trade engine
(`supabase/migrations/002_game_functions.sql`), replay clock
(`server/src/sim/replay.ts`), TTL cache (`server/src/sim/sse.ts` /
`server/src/sim/api.ts`), instrument pricing
(`server/src/sim/instruments.ts`) and currency conversion
(`server/src/game/accounts.ts`).

Money, prices and timestamps are modelled as rationals (SQL `NUMERIC`
is exact decimal arithmetic; JS numbers are used by the source only for
algebraic formulas).  Fallible SQL lookups are modelled with `Option`;
a trade/conversion returns the new state together with a structured
outcome, mirroring the JSONB result objects of the SQL functions.
-/

namespace TraderApp

/-- A `holdings` row for one (account, instrument) pair:
columns `quantity` and `avg_cost_basis`. -/
structure Holding where
  quantity : ℚ
  avg_cost_basis : ℚ
  deriving Repr, DecidableEq

/-- A `trades` row (the fields `execute_trade` inserts that matter to the
claims: type, quantity, price at trade, total cost). -/
structure TradeRec where
  trade_type : String
  quantity : ℚ
  price_at_trade : ℚ
  total_cost : ℚ
  deriving Repr, DecidableEq

/-- The slice of database state `execute_trade` reads and writes for one
account and one instrument: the `player_accounts` row (with ownership
check folded into `owned`), the `holdings` row for the traded
instrument (`none` = no row), the owning player's `last_trade_at`,
and the append-only `trades` audit list. -/
structure AccountState where
  owned : Bool
  cash_balance : ℚ
  holding : Option Holding
  last_trade_at : Option ℚ
  trades : List TradeRec
  deriving Repr, DecidableEq

/-- Structured failure reasons returned by `execute_trade`. -/
inductive TradeError where
  | notFound
  | rateLimited
  | insufficientFunds
  | insufficientHoldings
  | invalidTradeType
  deriving Repr, DecidableEq

/-- Outcome of `execute_trade`: the success JSONB object (trade type,
quantity, price, total cost, new cash) or a structured error. -/
inductive TradeOutcome where
  | ok (trade_type : String) (quantity price total_cost new_cash : ℚ)
  | err (e : TradeError)
  deriving Repr, DecidableEq

/-- The rate-limit test of `execute_trade`
(`v_last_trade IS NOT NULL AND v_last_trade > v_now - INTERVAL '2 seconds'`). -/
def rateLimited (last_trade_at : Option ℚ) (now : ℚ) : Bool :=
  match last_trade_at with
  | none => false
  | some t => decide (t > now - 2)

/-- Shallow embedding of the SQL function `execute_trade`
(`002_game_functions.sql`, lines 69-174).  `now` is `v_now := NOW()`,
in seconds.  Returns the updated state and the JSONB outcome. -/
def execute_trade (st : AccountState) (p_trade_type : String)
    (p_quantity p_price : ℚ) (now : ℚ) : AccountState × TradeOutcome :=
  if st.owned = false then
    (st, .err .notFound)
  else if rateLimited st.last_trade_at now then
    (st, .err .rateLimited)
  else
    let v_total_cost := p_quantity * p_price
    if p_trade_type = "buy" then
      if st.cash_balance < v_total_cost then
        (st, .err .insufficientFunds)
      else
        let newCash := st.cash_balance - v_total_cost
        let newHolding : Option Holding :=
          match st.holding with
          | none => some ⟨p_quantity, p_price⟩
          | some h =>
              let v_new_qty := h.quantity + p_quantity
              let v_new_basis :=
                ((h.quantity * h.avg_cost_basis) + (p_quantity * p_price)) / v_new_qty
              some ⟨v_new_qty, v_new_basis⟩
        let st' : AccountState :=
          { owned := st.owned
            cash_balance := newCash
            holding := newHolding
            last_trade_at := some now
            trades := st.trades ++ [⟨p_trade_type, p_quantity, p_price, v_total_cost⟩] }
        (st', .ok p_trade_type p_quantity p_price v_total_cost newCash)
    else if p_trade_type = "sell" then
      match st.holding with
      | none => (st, .err .insufficientHoldings)
      | some h =>
        if h.quantity < p_quantity then
          (st, .err .insufficientHoldings)
        else
          let newCash := st.cash_balance + v_total_cost
          let v_new_qty := h.quantity - p_quantity
          let newHolding : Option Holding :=
            if v_new_qty < 1 / 100000000 then none
            else some ⟨v_new_qty, h.avg_cost_basis⟩
          let st' : AccountState :=
            { owned := st.owned
              cash_balance := newCash
              holding := newHolding
              last_trade_at := some now
              trades := st.trades ++ [⟨p_trade_type, p_quantity, p_price, v_total_cost⟩] }
          (st', .ok p_trade_type p_quantity p_price v_total_cost newCash)
    else
      (st, .err .invalidTradeType)

/-- Success test for a trade outcome. -/
def TradeOutcome.isOk : TradeOutcome → Bool
  | .ok _ _ _ _ _ => true
  | .err _ => false

/-- C1: a successful buy via `execute_trade` at price `p` and quantity `q`
debits `cash_balance` by `q*p`; an existing holding `(oldQty, oldAvg)`
becomes `(oldQty+q, (oldQty*oldAvg + q*p)/(oldQty+q))`, a missing holding
is created as `(q, p)`; and starting from no holding, buying 10 units at
price 100 and then 10 units at price 200 yields quantity 20 and
`avg_cost_basis` 150. -/
theorem C1_buy_weighted_average_cost_basis :
    (∀ (st : AccountState) (q p now : ℚ),
       (execute_trade st "buy" q p now).2.isOk = true →
       (execute_trade st "buy" q p now).1.cash_balance = st.cash_balance - q * p ∧
       (match st.holding with
        | none => (execute_trade st "buy" q p now).1.holding = some ⟨q, p⟩
        | some h => (execute_trade st "buy" q p now).1.holding =
            some ⟨h.quantity + q,
                  (h.quantity * h.avg_cost_basis + q * p) / (h.quantity + q)⟩)) ∧
    ((execute_trade
        (execute_trade ⟨true, 3000, none, none, []⟩ "buy" 10 100 0).1
        "buy" 10 200 10).1.holding = some ⟨20, 150⟩) := by
  constructor
  · intro st q p now hok
    by_cases how : st.owned = false
    · simp [execute_trade, how, TradeOutcome.isOk] at hok
    · by_cases hrl : rateLimited st.last_trade_at now
      · simp [execute_trade, how, hrl, TradeOutcome.isOk] at hok
      · by_cases hfunds : st.cash_balance < q * p
        · simp [execute_trade, how, hrl, hfunds, TradeOutcome.isOk] at hok
        · cases hh : st.holding with
          | none => simp [execute_trade, how, hrl, hfunds, hh]
          | some h => simp [execute_trade, how, hrl, hfunds, hh]
  · norm_num [execute_trade, rateLimited]

/-- Witness for C1 at a concrete input: an owned account with cash 1000
and an existing holding of 5 units at basis 80 buys 5 units at 120. -/
theorem C1_buy_weighted_average_cost_basis_witness :
    (execute_trade ⟨true, 1000, some ⟨5, 80⟩, none, []⟩ "buy" 5 120 0).2.isOk = true ∧
    (execute_trade ⟨true, 1000, some ⟨5, 80⟩, none, []⟩ "buy" 5 120 0).1.cash_balance
      = 1000 - 5 * 120 ∧
    (execute_trade ⟨true, 1000, some ⟨5, 80⟩, none, []⟩ "buy" 5 120 0).1.holding
      = some ⟨5 + 5, (5 * 80 + 5 * 120) / (5 + 5)⟩ := by
  have hok : (execute_trade ⟨true, 1000, some ⟨5, 80⟩, none, []⟩ "buy" 5 120 0).2.isOk
      = true := by
    norm_num [execute_trade, rateLimited, TradeOutcome.isOk]
  have h := C1_buy_weighted_average_cost_basis.1 ⟨true, 1000, some ⟨5, 80⟩, none, []⟩ 5 120 0 hok
  exact ⟨hok, h.1, h.2⟩

/-- An owned account in the rate-limit window is rejected unchanged,
whatever the trade type, quantity and price. -/
theorem execute_trade_rejects_in_cooldown (s : AccountState) (tt : String) (q p now : ℚ)
    (how : s.owned = true) (hrl : rateLimited s.last_trade_at now = true) :
    execute_trade s tt q p now = (s, .err .rateLimited) := by
  simp [execute_trade, how, hrl]

/-- C3: a trade for an owned account whose player's `last_trade_at` is `t`
is rejected with the rate-limit error — and leaves every ledger field
unchanged — at any `now` with `now - t < 2` seconds; and two buy attempts
for the same account executed under the account row lock (modelled as
sequential execution of the two locked transactions, in submission
order) within 2 seconds yield exactly one applied trade and one
rate-limited rejection, the rejected one changing nothing. -/
theorem C3_trade_rate_limit_cooldown :
    (∀ (st : AccountState) (tt : String) (q p now t : ℚ),
       st.owned = true → st.last_trade_at = some t → now - t < 2 →
       execute_trade st tt q p now = (st, .err .rateLimited)) ∧
    (∀ (st : AccountState) (q1 p1 q2 p2 t1 t2 : ℚ),
       st.owned = true →
       (∀ t0, st.last_trade_at = some t0 → t0 ≤ t1 - 2) →
       q1 * p1 ≤ st.cash_balance →
       t1 ≤ t2 → t2 < t1 + 2 →
       (execute_trade st "buy" q1 p1 t1).2.isOk = true ∧
       (execute_trade (execute_trade st "buy" q1 p1 t1).1 "buy" q2 p2 t2).2
         = .err .rateLimited ∧
       (execute_trade (execute_trade st "buy" q1 p1 t1).1 "buy" q2 p2 t2).1
         = (execute_trade st "buy" q1 p1 t1).1) := by
  constructor
  · intro st tt q p now t how hlast hwin
    have hrl : rateLimited st.last_trade_at now = true := by
      simp only [rateLimited, hlast, decide_eq_true_eq]
      linarith
    exact execute_trade_rejects_in_cooldown st tt q p now how hrl
  · intro st q1 p1 q2 p2 t1 t2 how hRL hfunds hord hwin
    have hrl1 : rateLimited st.last_trade_at t1 = false := by
      cases hlt : st.last_trade_at with
      | none => simp [rateLimited]
      | some t0 =>
        have := hRL t0 hlt
        simp only [rateLimited, decide_eq_false_iff_not, not_lt]
        linarith
    have hnf : ¬ st.cash_balance < q1 * p1 := not_lt.mpr hfunds
    have hkey : (execute_trade st "buy" q1 p1 t1).1.owned = st.owned ∧
        (execute_trade st "buy" q1 p1 t1).1.last_trade_at = some t1 ∧
        (execute_trade st "buy" q1 p1 t1).2.isOk = true := by
      cases hh : st.holding with
      | none => simp [execute_trade, how, hrl1, hnf, hh, TradeOutcome.isOk]
      | some h => simp [execute_trade, how, hrl1, hnf, hh, TradeOutcome.isOk]
    have hrl2 : rateLimited (execute_trade st "buy" q1 p1 t1).1.last_trade_at t2 = true := by
      rw [hkey.2.1]
      simp only [rateLimited, decide_eq_true_eq]
      linarith
    have ho : (execute_trade st "buy" q1 p1 t1).1.owned = true := by rw [hkey.1, how]
    have h2 : execute_trade (execute_trade st "buy" q1 p1 t1).1 "buy" q2 p2 t2
        = ((execute_trade st "buy" q1 p1 t1).1, .err .rateLimited) :=
      execute_trade_rejects_in_cooldown _ "buy" q2 p2 t2 ho hrl2
    exact ⟨hkey.2.2, by rw [h2], by rw [h2]⟩

/-- Witness for C3 at concrete inputs: a rejected third-party trade 1.5
seconds after a trade at time 100, and a pair of buys at times 0 and 1
against a fresh account with cash 3000. -/
theorem C3_trade_rate_limit_cooldown_witness :
    (execute_trade ⟨true, 3000, none, some 100, []⟩ "sell" 1 1 (101 + 1/2)
      = (⟨true, 3000, none, some 100, []⟩, .err .rateLimited)) ∧
    (execute_trade ⟨true, 3000, none, none, []⟩ "buy" 10 100 0).2.isOk = true ∧
    (execute_trade (execute_trade ⟨true, 3000, none, none, []⟩ "buy" 10 100 0).1
        "buy" 10 100 1).2 = .err .rateLimited ∧
    (execute_trade (execute_trade ⟨true, 3000, none, none, []⟩ "buy" 10 100 0).1
        "buy" 10 100 1).1 = (execute_trade ⟨true, 3000, none, none, []⟩ "buy" 10 100 0).1 := by
  have ha := C3_trade_rate_limit_cooldown.1 ⟨true, 3000, none, some 100, []⟩ "sell" 1 1
    (101 + 1/2) 100 rfl rfl (by norm_num)
  have hb := C3_trade_rate_limit_cooldown.2 ⟨true, 3000, none, none, []⟩ 10 100 10 100 0 1
    rfl (by intro t0 h; cases h) (by norm_num) (by norm_num) (by norm_num)
  exact ⟨ha, hb.1, hb.2.1, hb.2.2⟩

/-- A `player_accounts` row as seen by `convert_currency`: cash balance and
currency.  `none` at the state level models "no row with that id owned by
`auth.uid()`". -/
structure ConvAccount where
  cash_balance : ℚ
  currency : String
  deriving Repr, DecidableEq

/-- A `currency_conversions` row (the inserted columns that matter). -/
structure ConvRec where
  amount_from : ℚ
  amount_to : ℚ
  exchange_rate : ℚ
  deriving Repr, DecidableEq

/-- The database state touched by `convert_currency`: the source and target
`player_accounts` rows and the append-only `currency_conversions` list. -/
structure ConvState where
  fromAccount : Option ConvAccount
  toAccount : Option ConvAccount
  conversions : List ConvRec
  deriving Repr, DecidableEq

/-- Structured failure reasons returned by `convert_currency`. -/
inductive ConvError where
  | sourceNotFound
  | targetNotFound
  | sameCurrency
  | nonPositiveAmount
  | insufficientFunds
  deriving Repr, DecidableEq

/-- Outcome of `convert_currency`: on success the JSONB object carries
`amount_from`, `amount_to` and `exchange_rate`. -/
inductive ConvOutcome where
  | ok (amount_from amount_to exchange_rate : ℚ)
  | err (e : ConvError)
  deriving Repr, DecidableEq

/-- Shallow embedding of the SQL function `convert_currency`
(`002_game_functions.sql`, lines 177-242). -/
def convert_currency (st : ConvState) (p_amount p_exchange_rate : ℚ) :
    ConvState × ConvOutcome :=
  match st.fromAccount with
  | none => (st, .err .sourceNotFound)
  | some src =>
    match st.toAccount with
    | none => (st, .err .targetNotFound)
    | some dst =>
      if src.currency = dst.currency then
        (st, .err .sameCurrency)
      else if p_amount ≤ 0 then
        (st, .err .nonPositiveAmount)
      else if src.cash_balance < p_amount then
        (st, .err .insufficientFunds)
      else
        let v_converted := p_amount * p_exchange_rate
        let st' : ConvState :=
          { fromAccount := some ⟨src.cash_balance - p_amount, src.currency⟩
            toAccount := some ⟨dst.cash_balance + v_converted, dst.currency⟩
            conversions := st.conversions ++ [⟨p_amount, v_converted, p_exchange_rate⟩] }
        (st', .ok p_amount v_converted p_exchange_rate)

/-- Success test for a conversion outcome. -/
def ConvOutcome.isOk : ConvOutcome → Bool
  | .ok _ _ _ => true
  | .err _ => false

/-- C2: `convert_currency` with amount `A` and rate `R` either succeeds —
source debited by exactly `A`, destination credited by exactly `A*R`, one
conversion row appended — or rejects (exactly when the source or target
account is missing/not owned, the currencies coincide, `A ≤ 0`, or the
source balance is below `A`) leaving the entire state unchanged: debit
and credit never happen one without the other. -/
theorem C2_conversion_atomicity :
    (∀ (st : ConvState) (A R : ℚ) (src dst : ConvAccount),
       st.fromAccount = some src → st.toAccount = some dst →
       (convert_currency st A R).2.isOk = true →
       (convert_currency st A R).1.fromAccount = some ⟨src.cash_balance - A, src.currency⟩ ∧
       (convert_currency st A R).1.toAccount = some ⟨dst.cash_balance + A * R, dst.currency⟩ ∧
       (convert_currency st A R).1.conversions = st.conversions ++ [⟨A, A * R, R⟩]) ∧
    (∀ (st : ConvState) (A R : ℚ),
       (convert_currency st A R).2.isOk = false → (convert_currency st A R).1 = st) ∧
    (∀ (st : ConvState) (A R : ℚ),
       (convert_currency st A R).2.isOk = false ↔
         st.fromAccount = none ∨ st.toAccount = none ∨
         ∃ src dst, st.fromAccount = some src ∧ st.toAccount = some dst ∧
           (src.currency = dst.currency ∨ A ≤ 0 ∨ src.cash_balance < A)) := by
  refine ⟨?_, ?_, ?_⟩
  · intro st A R src dst hf ht hok
    simp only [convert_currency, hf, ht] at hok ⊢
    split_ifs at hok ⊢ with h1 h2 h3
    · simp [ConvOutcome.isOk] at hok
    · simp [ConvOutcome.isOk] at hok
    · simp [ConvOutcome.isOk] at hok
    · exact ⟨rfl, rfl, rfl⟩
  · intro st A R
    rcases hf : st.fromAccount with _ | src
    · simp [convert_currency, hf]
    · rcases ht : st.toAccount with _ | dst
      · simp [convert_currency, hf, ht]
      · simp only [convert_currency, hf, ht]
        split_ifs with h1 h2 h3
        · simp
        · simp
        · simp
        · simp [ConvOutcome.isOk]
  · intro st A R
    rcases hf : st.fromAccount with _ | src
    · simp [convert_currency, hf, ConvOutcome.isOk]
    · rcases ht : st.toAccount with _ | dst
      · simp [convert_currency, hf, ht, ConvOutcome.isOk]
      · simp only [convert_currency, hf, ht]
        split_ifs with h1 h2 h3
        · simp [ConvOutcome.isOk, h1]
        · simp [ConvOutcome.isOk, h2]
        · simp [ConvOutcome.isOk, h3]
        · simp [ConvOutcome.isOk, h1, h2, h3]

/-- Witness for C2 at concrete inputs: a EUR account with balance 100
converts 40 at rate 2 into a USD account with balance 5 (success path);
the same state with amount `-5` is rejected and unchanged. -/
theorem C2_conversion_atomicity_witness :
    (convert_currency ⟨some ⟨100, "EUR"⟩, some ⟨5, "USD"⟩, []⟩ 40 2).2.isOk = true ∧
    (convert_currency ⟨some ⟨100, "EUR"⟩, some ⟨5, "USD"⟩, []⟩ 40 2).1.fromAccount
      = some ⟨100 - 40, "EUR"⟩ ∧
    (convert_currency ⟨some ⟨100, "EUR"⟩, some ⟨5, "USD"⟩, []⟩ 40 2).1.toAccount
      = some ⟨5 + 40 * 2, "USD"⟩ ∧
    (convert_currency ⟨some ⟨100, "EUR"⟩, some ⟨5, "USD"⟩, []⟩ 40 2).1.conversions
      = [] ++ [⟨40, 40 * 2, 2⟩] ∧
    (convert_currency ⟨some ⟨100, "EUR"⟩, some ⟨5, "USD"⟩, []⟩ (-5) 2).2.isOk = false ∧
    (convert_currency ⟨some ⟨100, "EUR"⟩, some ⟨5, "USD"⟩, []⟩ (-5) 2).1
      = ⟨some ⟨100, "EUR"⟩, some ⟨5, "USD"⟩, []⟩ := by
  have hok : (convert_currency ⟨some ⟨100, "EUR"⟩, some ⟨5, "USD"⟩, []⟩ 40 2).2.isOk
      = true := by
    norm_num [convert_currency, ConvOutcome.isOk, String.reduceEq]
    all_goals decide
  have hko : (convert_currency ⟨some ⟨100, "EUR"⟩, some ⟨5, "USD"⟩, []⟩ (-5) 2).2.isOk
      = false := by
    norm_num [convert_currency, ConvOutcome.isOk, String.reduceEq]
    all_goals decide
  have h1 := C2_conversion_atomicity.1 ⟨some ⟨100, "EUR"⟩, some ⟨5, "USD"⟩, []⟩ 40 2
    ⟨100, "EUR"⟩ ⟨5, "USD"⟩ rfl rfl hok
  have h2 := C2_conversion_atomicity.2.1 ⟨some ⟨100, "EUR"⟩, some ⟨5, "USD"⟩, []⟩ (-5) 2 hko
  exact ⟨hok, h1.1, h1.2.1, h1.2.2, hko, h2⟩

/-- Replay engine state (`server/src/sim/replay.ts`): the loaded date
sequence, cursor fields (`replayStartedAt`, `totalPausedMs`, `pausedAt`),
the current `config.REPLAY_SPEED_MS`, and the poll loop's last broadcast
date.  Times are wall-clock milliseconds. -/
structure ReplayState where
  allDates : List String
  replayStartedAt : ℚ
  totalPausedMs : ℚ
  pausedAt : Option ℚ
  replaySpeedMs : ℚ
  lastBroadcastDate : String
  deriving Repr, DecidableEq

/-- `computeDateIndex` (replay.ts lines 27-33): floor of elapsed time over
speed, clamped to `[0, allDates.length - 1]`; `-1` when no dates are
loaded; uses `pausedAt` as the effective now while paused. -/
def computeDateIndex (s : ReplayState) (now : ℚ) : ℤ :=
  if s.allDates.length = 0 then -1
  else
    let n := s.pausedAt.getD now
    let elapsedMs := n - s.replayStartedAt - s.totalPausedMs
    let idx := Int.floor (elapsedMs / s.replaySpeedMs)
    max 0 (min idx ((s.allDates.length : ℤ) - 1))

/-- `pauseReplay` (replay.ts lines 113-117): no-op when already paused. -/
def pauseReplay (s : ReplayState) (now : ℚ) : ReplayState :=
  match s.pausedAt with
  | some _ => s
  | none => { s with pausedAt := some now }

/-- `resumeReplay` (replay.ts lines 119-124): adds the paused interval to
`totalPausedMs` and clears `pausedAt`; no-op when not paused. -/
def resumeReplay (s : ReplayState) (now : ℚ) : ReplayState :=
  match s.pausedAt with
  | none => s
  | some t => { s with totalPausedMs := s.totalPausedMs + (now - t), pausedAt := none }

/-- `setReplaySpeed` (replay.ts lines 126-136): records the current index,
updates the speed (clamped to a minimum of 100 ms/day) and recomputes
`replayStartedAt` so the index is preserved. -/
def setReplaySpeed (s : ReplayState) (msPerDay : ℚ) (now : ℚ) : ReplayState :=
  let currentIdx := computeDateIndex s now
  let speed := max 100 msPerDay
  let n := s.pausedAt.getD now
  { s with replaySpeedMs := speed
           replayStartedAt := n - s.totalPausedMs - currentIdx * speed
           lastBroadcastDate := "" }

/-- `seekToIndex` (replay.ts lines 147-157): silent no-op for a target
index outside `[0, allDates.length - 1]`; otherwise recomputes
`replayStartedAt` for the target index (and refreshes `pausedAt` to the
effective now, which while paused equals `pausedAt` itself). -/
def seekToIndex (s : ReplayState) (targetIndex : ℤ) (now : ℚ) : ReplayState :=
  if targetIndex < 0 ∨ (s.allDates.length : ℤ) ≤ targetIndex then s
  else
    let n := s.pausedAt.getD now
    { s with replayStartedAt := n - s.totalPausedMs - targetIndex * s.replaySpeedMs
             pausedAt := if s.pausedAt.isSome then some n else none
             lastBroadcastDate := "" }

/-- `seekToDate` (replay.ts lines 138-145): looks the date up in
`allDates` and delegates to `seekToIndex`; a date not found is a warn-only
no-op. -/
def seekToDate (s : ReplayState) (targetDate : String) (now : ℚ) : ReplayState :=
  match s.allDates.indexOf? targetDate with
  | none => s
  | some i => seekToIndex s (i : ℤ) now

/-- The `POST /api/replay/seek` route handler (main entry point, replay
admin routes): picks `seekToDate` when a non-empty date is supplied, else
`seekToIndex` when an index is supplied, else a 400 error message; on
both seek paths it replies with the (possibly unchanged) replay progress
and no error. -/
def replaySeekRoute (s : ReplayState) (date : Option String) (index : Option ℤ)
    (now : ℚ) : ReplayState × Option String :=
  if date.getD "" ≠ "" then (seekToDate s (date.getD "") now, none)
  else
    match index with
    | some i => (seekToIndex s i now, none)
    | none => (s, some "Provide date (string) or index (number)")

/-- The ten-day date sequence of the C4 scenario. -/
def dates10 : List String :=
  ["d0", "d1", "d2", "d3", "d4", "d5", "d6", "d7", "d8", "d9"]

/-- C4: for a 10-entry clock at 1000 ms/unit started at `T` (not paused,
`totalPausedMs = 0`), the index at `T+2500` is 2; after `pause` at
`T+2500` and `resume` at `T+5000`, `totalPausedMs = 2500` and `pausedAt`
is cleared, and the index at `T+6000` is 3; and in general the index
follows `clamp(floor((effectiveNow - startedAt - totalPausedMs) / speed),
0, N-1)` with `effectiveNow = pausedAt` when paused, else `now`. -/
theorem C4_replay_clock_scenario (T : ℚ) :
    computeDateIndex ⟨dates10, T, 0, none, 1000, ""⟩ (T + 2500) = 2 ∧
    (resumeReplay (pauseReplay ⟨dates10, T, 0, none, 1000, ""⟩ (T + 2500))
        (T + 5000)).totalPausedMs = 2500 ∧
    (resumeReplay (pauseReplay ⟨dates10, T, 0, none, 1000, ""⟩ (T + 2500))
        (T + 5000)).pausedAt = none ∧
    computeDateIndex (resumeReplay (pauseReplay ⟨dates10, T, 0, none, 1000, ""⟩ (T + 2500))
        (T + 5000)) (T + 6000) = 3 ∧
    (∀ (s : ReplayState) (now : ℚ), s.allDates.length ≠ 0 →
       computeDateIndex s now =
         max 0 (min (Int.floor ((s.pausedAt.getD now - s.replayStartedAt -
             s.totalPausedMs) / s.replaySpeedMs)) ((s.allDates.length : ℤ) - 1))) := by
  refine ⟨?_, ?_, ?_, ?_, ?_⟩
  · show max 0 (min (Int.floor ((T + 2500 - T - 0) / 1000)) (10 - 1)) = 2
    rw [show (T + 2500 - T - 0) / 1000 = 5 / 2 by ring]
    norm_num
  · show (0 : ℚ) + (T + 5000 - (T + 2500)) = 2500
    ring
  · rfl
  · show max 0 (min (Int.floor ((T + 6000 - T - (0 + (T + 5000 - (T + 2500)))) / 1000))
      (10 - 1)) = 3
    rw [show (T + 6000 - T - (0 + (T + 5000 - (T + 2500)))) / 1000 = 7 / 2 by ring]
    norm_num
  · intro s now hne
    simp [computeDateIndex, hne]

/-- Witness for C4: the general clamp formula applied to the concrete
scenario clock at time 300. -/
theorem C4_replay_clock_scenario_witness :
    dates10.length ≠ 0 ∧
    computeDateIndex ⟨dates10, 0, 0, none, 1000, ""⟩ 300 =
      max 0 (min (Int.floor (((0 : ℚ) - 0 - 0 + 300) / 1000)) ((dates10.length : ℤ) - 1)) := by
  have hne : dates10.length ≠ 0 := by decide
  have h := (C4_replay_clock_scenario 0).2.2.2.2 ⟨dates10, 0, 0, none, 1000, ""⟩ 300 hne
  refine ⟨hne, ?_⟩
  rw [h]
  norm_num

/-- C5: `setReplaySpeed` preserves the current index: for every clock
state (paused or not, empty or loaded) and every requested speed,
`computeDateIndex` at the same instant is unchanged across the speed
change, because `replayStartedAt` is recomputed as
`effectiveNow - totalPausedMs - currentIndex * newSpeed`. -/
theorem C5_set_speed_preserves_current_index (s : ReplayState) (msPerDay now : ℚ) :
    computeDateIndex (setReplaySpeed s msPerDay now) now = computeDateIndex s now := by
  by_cases hlen : s.allDates.length = 0
  · simp [computeDateIndex, setReplaySpeed, hlen]
  · have hsp : (0 : ℚ) < max 100 msPerDay := lt_of_lt_of_le (by norm_num) (le_max_left _ _)
    have hL1 : 1 ≤ (s.allDates.length : ℤ) := by
      exact_mod_cast Nat.one_le_iff_ne_zero.mpr hlen
    set i := computeDateIndex s now with hi
    have hidef : i = max 0 (min (Int.floor ((s.pausedAt.getD now - s.replayStartedAt -
        s.totalPausedMs) / s.replaySpeedMs)) ((s.allDates.length : ℤ) - 1)) := by
      rw [hi]; simp [computeDateIndex, hlen]
    have hi0 : 0 ≤ i := by rw [hidef]; exact le_max_left _ _
    have hiL : i ≤ (s.allDates.length : ℤ) - 1 := by
      rw [hidef]; exact max_le (by omega) (min_le_right _ _)
    show computeDateIndex (setReplaySpeed s msPerDay now) now = i
    simp only [computeDateIndex, setReplaySpeed, hlen, if_false]
    rw [← hidef]
    rw [show s.pausedAt.getD now - (s.pausedAt.getD now - s.totalPausedMs -
        (i : ℚ) * max 100 msPerDay) - s.totalPausedMs = (i : ℚ) * max 100 msPerDay by ring]
    rw [mul_div_cancel_right₀ _ (ne_of_gt hsp), Int.floor_intCast]
    omega

/-- C6 (amended): for `0 ≤ i < N` a seek sets the computed index to `i`
(with `now` unchanged; a paused clock stays paused); for `i` outside
`[0, N-1]` the seek is a silent no-op — the whole state, in particular
`replayStartedAt`, `totalPausedMs` and `pausedAt`, is unchanged — and the
seek route replies with the regular progress payload and no error, so the
caller sees no fatal failure (and no explicit out-of-range report). -/
theorem C6_seek_to_index :
    (∀ (s : ReplayState) (i : ℤ) (now : ℚ),
       0 < s.replaySpeedMs → 0 ≤ i → i < (s.allDates.length : ℤ) →
       computeDateIndex (seekToIndex s i now) now = i ∧
       (seekToIndex s i now).pausedAt.isSome = s.pausedAt.isSome) ∧
    (∀ (s : ReplayState) (i : ℤ) (now : ℚ),
       (i < 0 ∨ (s.allDates.length : ℤ) ≤ i) →
       seekToIndex s i now = s ∧
       replaySeekRoute s none (some i) now = (s, none)) := by
  constructor
  · intro s i now hspeed hi0 hiL
    have hnot : ¬ (i < 0 ∨ (s.allDates.length : ℤ) ≤ i) :=
      not_or.mpr ⟨not_lt.mpr hi0, not_le.mpr hiL⟩
    have hlen : s.allDates.length ≠ 0 := by
      intro h
      rw [h] at hiL
      omega
    cases hp : s.pausedAt with
    | none =>
      refine ⟨?_, by simp [seekToIndex, hnot, hp]⟩
      simp only [seekToIndex, hnot, if_neg, not_false_iff, hp, Option.getD_none,
        Option.isSome_none, Bool.false_eq_true, if_false, computeDateIndex, hlen]
      rw [show now - (now - s.totalPausedMs - (i : ℚ) * s.replaySpeedMs) -
          s.totalPausedMs = (i : ℚ) * s.replaySpeedMs by ring]
      rw [mul_div_cancel_right₀ _ (ne_of_gt hspeed), Int.floor_intCast]
      omega
    | some t =>
      refine ⟨?_, by simp [seekToIndex, hnot, hp]⟩
      simp only [seekToIndex, hnot, if_neg, not_false_iff, hp, Option.getD_some,
        Option.isSome_some, if_true, computeDateIndex, hlen]
      rw [show t - (t - s.totalPausedMs - (i : ℚ) * s.replaySpeedMs) -
          s.totalPausedMs = (i : ℚ) * s.replaySpeedMs by ring]
      rw [mul_div_cancel_right₀ _ (ne_of_gt hspeed), Int.floor_intCast]
      omega
  · intro s i now hout
    have h1 : seekToIndex s i now = s := by
      simp [seekToIndex, hout]
    exact ⟨h1, by simp [replaySeekRoute, h1]⟩

/-- Counterexample to C6 as stated: seeking the 10-day demo clock to
index 99 leaves the state untouched, and the seek route's reply carries
no error at all — nothing reports "out of range" to the caller. -/
theorem C6_seek_out_of_range_counterexample :
    seekToIndex ⟨dates10, 0, 0, none, 1000, ""⟩ 99 5000 = ⟨dates10, 0, 0, none, 1000, ""⟩ ∧
    replaySeekRoute ⟨dates10, 0, 0, none, 1000, ""⟩ none (some 99) 5000
      = (⟨dates10, 0, 0, none, 1000, ""⟩, none) := by
  have h1 : seekToIndex ⟨dates10, 0, 0, none, 1000, ""⟩ 99 5000
      = ⟨dates10, 0, 0, none, 1000, ""⟩ := by
    norm_num [seekToIndex, dates10]
  exact ⟨h1, by simp [replaySeekRoute, h1]⟩

/-- Witness for C6 (amended) at concrete inputs: an in-range seek of the
10-day demo clock to index 7 and an out-of-range seek to index `-3`. -/
theorem C6_seek_to_index_witness :
    ((0 : ℚ) < 1000 ∧ (0 : ℤ) ≤ 7 ∧ (7 : ℤ) < (dates10.length : ℤ) ∧
     computeDateIndex (seekToIndex ⟨dates10, 0, 0, none, 1000, ""⟩ 7 123) 123 = 7) ∧
    (((-3 : ℤ) < 0 ∨ (dates10.length : ℤ) ≤ -3) ∧
     seekToIndex ⟨dates10, 0, 0, none, 1000, ""⟩ (-3) 123 = ⟨dates10, 0, 0, none, 1000, ""⟩) := by
  have ha : (0 : ℚ) < 1000 := by norm_num
  have hb : (0 : ℤ) ≤ 7 := by norm_num
  have hc : (7 : ℤ) < (dates10.length : ℤ) := by norm_num [dates10]
  have hd : ((-3 : ℤ) < 0 ∨ (dates10.length : ℤ) ≤ -3) := Or.inl (by norm_num)
  have h1 := C6_seek_to_index.1 ⟨dates10, 0, 0, none, 1000, ""⟩ 7 123 ha hb hc
  have h2 := C6_seek_to_index.2 ⟨dates10, 0, 0, none, 1000, ""⟩ (-3) 123 hd
  exact ⟨⟨ha, hb, hc, h1.1⟩, hd, h2.1⟩

/-- A cache entry (`sse.ts` lines 74-77 / `api.ts` lines 8-11): payload
and absolute expiry timestamp. -/
structure CacheEntry (α : Type) where
  data : α
  expiresAt : ℚ

/-- The in-memory cache, a JS `Map` from request path to entry. -/
def Cache (α : Type) : Type :=
  String → Option (CacheEntry α)

/-- `cacheGet` (sse.ts lines 81-85): a hit only while `expiresAt > now`;
an expired or missing entry reads as absent. -/
def cacheGet {α : Type} (c : Cache α) (key : String) (now : ℚ) : Option α :=
  match c key with
  | some entry => if entry.expiresAt > now then some entry.data else none
  | none => none

/-- `cacheSet` (sse.ts lines 87-89): unconditional overwrite, expiry
`now + ttlMs`. -/
def cacheSet {α : Type} (c : Cache α) (key : String) (data : α) (ttlMs now : ℚ) :
    Cache α :=
  fun k => if k = key then some ⟨data, now + ttlMs⟩ else c k

/-- `cachedFetch` (sse.ts lines 91-102, same logic as api.ts lines
15-28): serve a fresh entry, otherwise perform the fetch (its outcome is
passed in as `fetchResult`) and cache a successful payload; a failed
fetch caches nothing. -/
def cachedFetch {α : Type} (c : Cache α) (path : String) (ttlMs now : ℚ)
    (fetchResult : Except String α) : Cache α × Except String α :=
  match cacheGet c path now with
  | some v => (c, .ok v)
  | none =>
    match fetchResult with
    | .ok data => (cacheSet c path data ttlMs now, .ok data)
    | .error e => (c, .error e)

/-- C7: an entry stored at `t0` with TTL `T` is a hit (the stored value)
at every time strictly before `t0 + T`, is a miss at every time at or
after `t0 + T`, and once expired it is eligible for overwrite: a
`cachedFetch` at such a time re-fetches and replaces the entry. -/
theorem C7_cache_ttl_boundary :
    ∀ (α : Type) (c : Cache α) (key : String) (v : α) (ttl t0 t : ℚ),
      (t < t0 + ttl → cacheGet (cacheSet c key v ttl t0) key t = some v) ∧
      (t0 + ttl ≤ t → cacheGet (cacheSet c key v ttl t0) key t = none) ∧
      (t0 + ttl ≤ t → ∀ (v' : α) (ttl' : ℚ),
        cachedFetch (cacheSet c key v ttl t0) key ttl' t (.ok v')
          = (cacheSet (cacheSet c key v ttl t0) key v' ttl' t, .ok v')) := by
  intro α c key v ttl t0 t
  refine ⟨?_, ?_, ?_⟩
  · intro h
    simp [cacheGet, cacheSet, h]
  · intro h
    simp [cacheGet, cacheSet, not_lt.mpr h]
  · intro h v' ttl'
    simp [cachedFetch, cacheGet, cacheSet, not_lt.mpr h]

/-- Witness for C7 with a rational-valued cache: value 42 stored at time
100 with TTL 30 is a hit at 129, a miss at 130, and overwritten by a
fetch of 7 at 130. -/
theorem C7_cache_ttl_boundary_witness :
    ((129 : ℚ) < 100 + 30 ∧
     cacheGet (cacheSet (fun _ => none) "k" (42 : ℚ) 30 100) "k" 129 = some 42) ∧
    ((100 : ℚ) + 30 ≤ 130 ∧
     cacheGet (cacheSet (fun _ => none) "k" (42 : ℚ) 30 100) "k" 130 = none ∧
     cachedFetch (cacheSet (fun _ => none) "k" (42 : ℚ) 30 100) "k" 30 130 (.ok 7)
       = (cacheSet (cacheSet (fun _ => none) "k" (42 : ℚ) 30 100) "k" 7 30 130, .ok 7)) := by
  have h1 : (129 : ℚ) < 100 + 30 := by norm_num
  have h2 : (100 : ℚ) + 30 ≤ 130 := by norm_num
  have hh := C7_cache_ttl_boundary ℚ (fun _ => none) "k" 42 30 100 129
  have hm := C7_cache_ttl_boundary ℚ (fun _ => none) "k" 42 30 100 130
  exact ⟨⟨h1, hh.1 h1⟩, h2, hm.2.1 h2, hm.2.2 h2 7 30⟩

/-- `PRICE_DIVISOR` (instruments.ts line 8). -/
def PRICE_DIVISOR : ℚ := 20

/-- `INDEX_BASE` (instruments.ts line 10). -/
def INDEX_BASE : ℚ := 1000

/-- The scaled-equity raw series of the CREDITBANK_MA branch
(instruments.ts line 99): `equity.map(eq => Math.max(0, eq) / PRICE_DIVISOR)`. -/
def creditbankRaw (equity : List ℚ) : List ℚ :=
  equity.map (fun eq => max 0 eq / PRICE_DIVISOR)

/-- The imperative 190-period moving-average loop of the CREDITBANK_MA
branch (instruments.ts lines 100-109): running `sum` over a sliding
window, pushing `sum / 190` from index 189 on and the raw value before
that. -/
def maSeriesGo (raw : List ℚ) (i : ℕ) (sum : ℚ) (acc : List ℚ) : List ℚ :=
  if _h : i < raw.length then
    let sum1 := sum + raw.getD i 0
    let sum2 := if 190 ≤ i then sum1 - raw.getD (i - 190) 0 else sum1
    maSeriesGo raw (i + 1) sum2
      (acc ++ [if 189 ≤ i then sum2 / 190 else raw.getD i 0])
  else acc
termination_by raw.length - i

/-- The complete MA series built by the loop, started as in the source
(`sum = 0`, empty output). -/
def maSeries (raw : List ℚ) : List ℚ :=
  maSeriesGo raw 0 0 []

/-- The derived price series of the CREDITBANK_MA instrument
(instruments.ts lines 97-110). -/
def creditbankPrices (equity : List ℚ) : List ℚ :=
  maSeries (creditbankRaw equity)

/-- Intended value of the MA series at index `i`: the mean of the 190-wide
window ending at `i` once the window has filled, the raw value before. -/
def maVal (raw : List ℚ) (i : ℕ) : ℚ :=
  if 189 ≤ i then (∑ j in Finset.Icc (i - 189) i, raw.getD j 0) / 190
  else raw.getD i 0

/-- One step of the loop's running sum moves the 190-window one slot. -/
theorem maWindowStep (raw : List ℚ) (i : ℕ) :
    (if 190 ≤ i
      then ((∑ j in Finset.Ico (i - 190) i, raw.getD j 0) + raw.getD i 0) -
        raw.getD (i - 190) 0
      else (∑ j in Finset.Ico (i - 190) i, raw.getD j 0) + raw.getD i 0)
    = ∑ j in Finset.Ico (i + 1 - 190) (i + 1), raw.getD j 0 := by
  by_cases h : 190 ≤ i
  · rw [if_pos h]
    have h1 : (∑ j in Finset.Ico (i - 190) (i + 1), raw.getD j 0)
        = (∑ j in Finset.Ico (i - 190) i, raw.getD j 0) + raw.getD i 0 :=
      Finset.sum_Ico_succ_top (by omega) _
    have h2 : (∑ j in Finset.Ico (i - 190) (i + 1), raw.getD j 0)
        = raw.getD (i - 190) 0 + ∑ j in Finset.Ico (i - 190 + 1) (i + 1), raw.getD j 0 :=
      Finset.sum_eq_sum_Ico_succ_bot (by omega) _
    have h3 : i + 1 - 190 = i - 190 + 1 := by omega
    rw [h3]
    linarith
  · rw [if_neg h]
    have h3 : i + 1 - 190 = i - 190 := by omega
    rw [h3]
    exact (Finset.sum_Ico_succ_top (by omega) _).symm

/-- Loop invariant of `maSeriesGo`: started at index `i` with the correct
window sum, it appends exactly the intended values for indices `i` to the
end of the series. -/
theorem maSeriesGo_spec (raw : List ℚ) :
    ∀ (n i : ℕ) (sum : ℚ) (acc : List ℚ),
      n = raw.length - i →
      sum = ∑ j in Finset.Ico (i - 190) i, raw.getD j 0 →
      maSeriesGo raw i sum acc
        = acc ++ (List.range' i (raw.length - i)).map (maVal raw) := by
  intro n
  induction n with
  | zero =>
    intro i sum acc hn hsum
    have hge : ¬ i < raw.length := by omega
    rw [maSeriesGo, dif_neg hge]
    have h0 : raw.length - i = 0 := by omega
    simp [h0]
  | succ n ih =>
    intro i sum acc hn hsum
    have hi : i < raw.length := by omega
    rw [maSeriesGo, dif_pos hi]
    have hsum2 : (if 190 ≤ i then sum + raw.getD i 0 - raw.getD (i - 190) 0
        else sum + raw.getD i 0)
        = ∑ j in Finset.Ico (i + 1 - 190) (i + 1), raw.getD j 0 := by
      rw [hsum]
      exact maWindowStep raw i
    have hval : (if 189 ≤ i
        then (if 190 ≤ i then sum + raw.getD i 0 - raw.getD (i - 190) 0
          else sum + raw.getD i 0) / 190
        else raw.getD i 0) = maVal raw i := by
      rw [hsum2, maVal]
      by_cases h9 : 189 ≤ i
      · rw [if_pos h9, if_pos h9]
        have : i + 1 - 190 = i - 189 := by omega
        rw [this, Nat.Ico_succ_right]
      · rw [if_neg h9, if_neg h9]
    have hrec := ih (i + 1)
      (if 190 ≤ i then sum + raw.getD i 0 - raw.getD (i - 190) 0 else sum + raw.getD i 0)
      (acc ++ [if 189 ≤ i
        then (if 190 ≤ i then sum + raw.getD i 0 - raw.getD (i - 190) 0
          else sum + raw.getD i 0) / 190
        else raw.getD i 0])
      (by omega) hsum2
    simp only [] at hrec ⊢
    rw [hrec, hval]
    have hrange : raw.length - i = (raw.length - (i + 1)) + 1 := by omega
    rw [hrange, List.range'_succ, List.map_cons, List.append_assoc, List.singleton_append]

/-- The loop output is the intended value at every index. -/
theorem maSeries_eq (raw : List ℚ) :
    maSeries raw = (List.range raw.length).map (maVal raw) := by
  rw [maSeries, maSeriesGo_spec raw raw.length 0 0 [] (by omega) (by simp)]
  simp [List.range_eq_range']

/-- C8: for a scaled-equity raw series shorter than 190 entries, the
CREDITBANK_MA price series equals the raw series elementwise (same list);
for longer series, every index from 189 on is the arithmetic mean of the
190-wide window of raw values ending there. -/
theorem C8_creditbank_ma_fallback_and_window :
    (∀ (equity : List ℚ), equity.length < 190 →
       creditbankPrices equity = creditbankRaw equity) ∧
    (∀ (equity : List ℚ) (k : ℕ), 189 ≤ k → k < equity.length →
       (creditbankPrices equity).getD k 0
         = (∑ j in Finset.Icc (k - 189) k, (creditbankRaw equity).getD j 0) / 190) := by
  constructor
  · intro equity hlen
    have hlr : (creditbankRaw equity).length = equity.length := by
      simp [creditbankRaw]
    rw [creditbankPrices, maSeries_eq]
    apply List.ext_getElem
    · simp
    · intro n h1 h2
      simp only [List.getElem_map, List.getElem_range]
      rw [maVal, if_neg (by omega)]
      exact List.getD_eq_getElem (creditbankRaw equity) 0 (by omega)
  · intro equity k h9 hk
    have hlr : (creditbankRaw equity).length = equity.length := by
      simp [creditbankRaw]
    rw [creditbankPrices, maSeries_eq]
    rw [List.getD_eq_getElem _ 0 (by simp [hlr]; omega)]
    simp only [List.getElem_map, List.getElem_range]
    rw [maVal, if_pos h9]

/-- Witness for C8 at concrete inputs: a 3-entry equity series falls back
to the raw series; a 190-entry constant series takes the windowed mean at
index 189. -/
theorem C8_creditbank_ma_fallback_and_window_witness :
    (([20, 40, -10] : List ℚ).length < 190 ∧
     creditbankPrices [20, 40, -10] = creditbankRaw [20, 40, -10]) ∧
    ((189 : ℕ) ≤ 189 ∧ 189 < (List.replicate 190 (20 : ℚ)).length ∧
     (creditbankPrices (List.replicate 190 (20 : ℚ))).getD 189 0
       = (∑ j in Finset.Icc (189 - 189) 189,
            (creditbankRaw (List.replicate 190 (20 : ℚ))).getD j 0) / 190) := by
  have h1 : ([20, 40, -10] : List ℚ).length < 190 := by norm_num
  have h2 : 189 < (List.replicate 190 (20 : ℚ)).length := by
    rw [List.length_replicate]
    norm_num
  exact ⟨⟨h1, C8_creditbank_ma_fallback_and_window.1 [20, 40, -10] h1⟩,
    le_refl 189, h2,
    C8_creditbank_ma_fallback_and_window.2 (List.replicate 190 (20 : ℚ)) 189 (le_refl 189) h2⟩

/-- The normalization base of the BROAD_MARKET_ETF branch (instruments.ts
line 119): `Math.max(1, data.equity[0] || 1)`; JS `|| 1` turns a zero (or
missing) first element into 1 before the clamp. -/
def broadMarketBase (equity : List ℚ) : ℚ :=
  max 1 (if equity.getD 0 0 = 0 then 1 else equity.getD 0 0)

/-- The derived price series of the BROAD_MARKET_ETF instrument
(instruments.ts lines 117-121): `(Math.max(0, eq) / base) * INDEX_BASE`. -/
def broadMarketPrices (equity : List ℚ) : List ℚ :=
  equity.map (fun eq => max 0 eq / broadMarketBase equity * INDEX_BASE)

/-- Counterexample to C9 as stated: for the non-empty equity series
`[2, -1]` the code yields price 0 at index 1 (the negative equity is
clamped to 0), while `equity[1]/equity[0] * 1000 = -500`. -/
theorem C9_broad_market_counterexample :
    (broadMarketPrices [2, -1]).getD 1 0 = 0 ∧
    ([(2 : ℚ), -1].getD 1 0) / ([(2 : ℚ), -1].getD 0 0) * INDEX_BASE = -500 ∧
    (0 : ℚ) ≠ -500 := by
  refine ⟨?_, ?_, by norm_num⟩
  · norm_num [broadMarketPrices, broadMarketBase, INDEX_BASE,
      List.getD_cons_zero, List.getD_cons_succ]
  · norm_num [INDEX_BASE, List.getD_cons_zero, List.getD_cons_succ]

/-- C9 (amended): the BROAD_MARKET_ETF price series satisfies
`prices[i] = equity[i] / equity[0] * 1000` at every index of a non-empty
series whose first observation is at least 1 and whose values are all
nonnegative; in general the code clamps each value with `max(0, ·)` and
the base with `max(1, equity[0] || 1)`. -/
theorem C9_broad_market_normalization :
    ∀ (equity : List ℚ) (i : ℕ), i < equity.length →
      1 ≤ equity.getD 0 0 → (∀ j, j < equity.length → 0 ≤ equity.getD j 0) →
      (broadMarketPrices equity).getD i 0
        = equity.getD i 0 / equity.getD 0 0 * INDEX_BASE := by
  intro equity i hi h0 hall
  have hne : ¬ equity.getD 0 0 = 0 := by
    intro h
    rw [h] at h0
    norm_num at h0
  have hbase : broadMarketBase equity = equity.getD 0 0 := by
    rw [broadMarketBase, if_neg hne, max_eq_right h0]
  rw [broadMarketPrices, List.getD_eq_getElem _ 0 (by simpa using hi)]
  simp only [List.getElem_map]
  rw [hbase]
  have hgi : equity.getD i 0 = equity[i] := List.getD_eq_getElem equity 0 hi
  rw [← hgi, max_eq_right (hall i hi)]

/-- Witness for C9 (amended) at a concrete input: the series `[2, 4]` at
index 1 prices at `4 / 2 * 1000`. -/
theorem C9_broad_market_normalization_witness :
    (1 < ([(2 : ℚ), 4] : List ℚ).length ∧ (1 : ℚ) ≤ [(2 : ℚ), 4].getD 0 0 ∧
     (∀ j, j < ([(2 : ℚ), 4] : List ℚ).length → 0 ≤ [(2 : ℚ), 4].getD j 0)) ∧
    (broadMarketPrices [2, 4]).getD 1 0
      = [(2 : ℚ), 4].getD 1 0 / [(2 : ℚ), 4].getD 0 0 * INDEX_BASE := by
  have h1 : 1 < ([(2 : ℚ), 4] : List ℚ).length := by norm_num
  have h2 : (1 : ℚ) ≤ [(2 : ℚ), 4].getD 0 0 := by norm_num [List.getD_cons_zero]
  have h3 : ∀ j, j < ([(2 : ℚ), 4] : List ℚ).length → 0 ≤ [(2 : ℚ), 4].getD j 0 := by
    intro j hj
    have hj2 : j < 2 := by simpa using hj
    interval_cases j <;> norm_num [List.getD_cons_zero, List.getD_cons_succ]
  exact ⟨⟨h1, h2, h3⟩, C9_broad_market_normalization [2, 4] 1 h1 h2 h3⟩

/-- The OHLCV payload, reduced to the `close` series `getExchangeRate`
reads (api.ts `OhlcvData`). -/
structure OhlcvData where
  close : List ℚ
  deriving Repr, DecidableEq

/-- `getExchangeRate` (instruments.ts lines 160-169): parity for a
same-currency pair; otherwise the last close of the `to`-in-`from` OHLCV
series, with 1.0 substituted when the fetch throws (`fetched = none`,
modelling the `catch` arm) or the close series is empty (`?? 1.0`). -/
def getExchangeRate (fromCur toCur : String) (fetched : Option OhlcvData) : ℚ :=
  if fromCur = toCur then 1
  else
    match fetched with
    | none => 1
    | some data => (data.close.getLast?).getD 1

/-- The error message carried in each structured rejection of
`convert_currency`. -/
def convErrMessage : ConvError → String
  | .sourceNotFound => "Source account not found"
  | .targetNotFound => "Target account not found"
  | .sameCurrency => "Cannot convert to same currency"
  | .nonPositiveAmount => "Amount must be positive"
  | .insufficientFunds => "Insufficient funds"

/-- The `ConvertResult` object of accounts.ts (lines 48-56). -/
structure ConvertResult where
  success : Bool
  error : Option String
  amountFrom : Option ℚ
  amountTo : Option ℚ
  exchangeRate : Option ℚ
  deriving Repr, DecidableEq

/-- `convertCurrency` (accounts.ts lines 58-102): local validation, then
`getExchangeRate` (whose fetch outcome is passed in as `fetched`), then
the `convert_currency` RPC. -/
def convertCurrency (st : ConvState) (amount : ℚ) (fromCurrency toCurrency : String)
    (fetched : Option OhlcvData) : ConvState × ConvertResult :=
  if amount ≤ 0 then
    (st, ⟨false, some "Amount must be positive", none, none, none⟩)
  else if fromCurrency = toCurrency then
    (st, ⟨false, some "Cannot convert to same currency", none, none, none⟩)
  else
    let rate := getExchangeRate fromCurrency toCurrency fetched
    match convert_currency st amount rate with
    | (st', .ok _ amount_to _) =>
        (st', ⟨true, none, some amount, some amount_to, some rate⟩)
    | (st', .err e) =>
        (st', ⟨false, some (convErrMessage e), none, none, none⟩)

/-- C10: `getExchangeRate` is a total function that returns 1.0 for a
same-currency pair and also returns 1.0 — indistinguishable from parity —
when the fetch fails or the close series is empty; consequently
`convertCurrency` during a data-source outage behaves exactly like a
conversion at rate 1 (its success path reports `exchangeRate = 1`), with
no `SourceUnavailable`-style rejection. -/
theorem C10_exchange_rate_parity_fallback :
    (∀ (c : String) (fetched : Option OhlcvData), getExchangeRate c c fetched = 1) ∧
    (∀ (a b : String), getExchangeRate a b none = 1) ∧
    (∀ (a b : String) (d : OhlcvData), d.close = [] → getExchangeRate a b (some d) = 1) ∧
    (∀ (st : ConvState) (amount : ℚ) (a b : String), ¬ amount ≤ 0 → a ≠ b →
       (convertCurrency st amount a b none).1 = (convert_currency st amount 1).1 ∧
       ((convertCurrency st amount a b none).2.success = true →
         (convertCurrency st amount a b none).2.exchangeRate = some 1)) := by
  refine ⟨?_, ?_, ?_, ?_⟩
  · intro c fetched
    simp [getExchangeRate]
  · intro a b
    simp [getExchangeRate]
  · intro a b d hd
    simp [getExchangeRate, hd]
  · intro st amount a b hamt hcur
    have hrate : getExchangeRate a b none = 1 := by simp [getExchangeRate]
    simp only [convertCurrency, if_neg hamt, if_neg hcur, hrate]
    rcases hconv : convert_currency st amount 1 with ⟨st', out⟩
    cases out <;> simp

/-- Witness for C10 at concrete inputs: parity pairs and an outage
conversion of 40 EUR→USD over the concrete two-account state. -/
theorem C10_exchange_rate_parity_fallback_witness :
    getExchangeRate "EUR" "EUR" none = 1 ∧
    getExchangeRate "EUR" "USD" none = 1 ∧
    ((⟨[]⟩ : OhlcvData).close = [] ∧ getExchangeRate "EUR" "USD" (some ⟨[]⟩) = 1) ∧
    (¬ (40 : ℚ) ≤ 0 ∧ ("EUR" : String) ≠ "USD" ∧
     (convertCurrency ⟨some ⟨100, "EUR"⟩, some ⟨5, "USD"⟩, []⟩ 40 "EUR" "USD" none).1
       = (convert_currency ⟨some ⟨100, "EUR"⟩, some ⟨5, "USD"⟩, []⟩ 40 1).1) := by
  have ha : ¬ (40 : ℚ) ≤ 0 := by norm_num
  have hb : ("EUR" : String) ≠ "USD" := by decide
  have h4 := C10_exchange_rate_parity_fallback.2.2.2
    ⟨some ⟨100, "EUR"⟩, some ⟨5, "USD"⟩, []⟩ 40 "EUR" "USD" ha hb
  exact ⟨C10_exchange_rate_parity_fallback.1 "EUR" none,
    C10_exchange_rate_parity_fallback.2.1 "EUR" "USD",
    ⟨rfl, C10_exchange_rate_parity_fallback.2.2.1 "EUR" "USD" ⟨[]⟩ rfl⟩,
    ha, hb, h4.1⟩

end TraderApp
